import Mathlib

/-!
Verification of the photo_frame repository's image-processing pipeline
against its natural-language specification.

The upload server (`src/src/server/app.ts`, `src/server/services/imageProcessor.ts`,
`src/server/routes/photo` route) is embedded from the TypeScript source.
The core quantization pipeline (PaletteCatalog, NearestColorResolver,
ToneEnhancer, ErrorDiffusionDitherer) lives in `display/display_manager.py`,
which is not part of the available sources (only its documentation and
callers are), so those components are modelled from the spec.
-/

namespace PhotoFrame

/-- A color with rational channels, used by the core quantization pipeline
(error accumulators are signed and fractional, so channels live in ℚ). -/
@[ext]
structure RGBQ where
  r : ℚ
  g : ℚ
  b : ℚ
deriving DecidableEq, Repr

/-- Componentwise sum of two colors. -/
def addQ (a c : RGBQ) : RGBQ := ⟨a.r + c.r, a.g + c.g, a.b + c.b⟩

/-- Componentwise signed difference of two colors. -/
def subQ (a c : RGBQ) : RGBQ := ⟨a.r - c.r, a.g - c.g, a.b - c.b⟩

/-- Scale a color by a rational factor. -/
def smulQ (k : ℚ) (a : RGBQ) : RGBQ := ⟨k * a.r, k * a.g, k * a.b⟩

/-- Squared Euclidean distance between two colors in RGB space (the default
metric; monotone in the Euclidean distance, so it induces the same order). -/
def distSq (a c : RGBQ) : ℚ :=
  (a.r - c.r) ^ 2 + (a.g - c.g) ^ 2 + (a.b - c.b) ^ 2

/-- Modelled from the spec: the scan of `NearestColorResolver.resolve` over the
tail of the palette (`display/display_manager.py`'s `find_closest_color` is not
among the sources).  Keeps the current best entry and its distance; a later
entry replaces the best only on strictly smaller distance, so the earliest
entry in catalog order wins ties. -/
def nearestAux (t best : RGBQ) (bd : ℚ) : List RGBQ → RGBQ
  | [] => best
  | c :: cs =>
      if distSq t c < bd then nearestAux t c (distSq t c) cs
      else nearestAux t best bd cs

/-- Modelled from the spec: `resolve(color, palette) -> (chosenColor, residual)`
returns the palette entry minimizing distance to `color` (ties broken by
first-in-catalog order) and the signed per-channel residual
`color - chosenColor`.  On the empty palette it returns black with residual
`color` (the spec requires a non-empty palette). -/
def resolve (t : RGBQ) : List RGBQ → RGBQ × RGBQ
  | [] => (⟨0, 0, 0⟩, t)
  | c :: cs =>
      let ch := nearestAux t c (distSq t c) cs
      (ch, subQ t ch)

/-- The result of `nearestAux` is the initial best or a member of the list. -/
lemma nearestAux_mem (t best : RGBQ) (bd : ℚ) (l : List RGBQ) :
    nearestAux t best bd l = best ∨ nearestAux t best bd l ∈ l := by
  induction l generalizing best bd with
  | nil => exact Or.inl rfl
  | cons c cs ih =>
      simp only [nearestAux]
      by_cases h : distSq t c < bd
      · rw [if_pos h]
        rcases ih c (distSq t c) with h1 | h1
        · exact Or.inr (by simp [h1])
        · exact Or.inr (List.mem_cons_of_mem _ h1)
      · rw [if_neg h]
        rcases ih best bd with h1 | h1
        · exact Or.inl h1
        · exact Or.inr (List.mem_cons_of_mem _ h1)

/-- Full characterization of `nearestAux` when started with the true distance
of the initial best: either the initial best survives and is no worse than
every list entry, or the result is the first list entry attaining the
minimum, strictly better than the initial best and everything before it. -/
lemma nearestAux_spec (t best : RGBQ) (l : List RGBQ) :
    (nearestAux t best (distSq t best) l = best ∧
      ∀ q ∈ l, distSq t best ≤ distSq t q) ∨
    (∃ l₁ l₂, l = l₁ ++ nearestAux t best (distSq t best) l ::
        l₂ ∧
      distSq t (nearestAux t best (distSq t best) l) < distSq t best ∧
      (∀ q ∈ l₁, distSq t (nearestAux t best (distSq t best) l) < distSq t q) ∧
      (∀ q ∈ l₂, distSq t (nearestAux t best (distSq t best) l) ≤ distSq t q)) := by
  induction l generalizing best with
  | nil => exact Or.inl ⟨rfl, by simp⟩
  | cons c cs ih =>
      by_cases h : distSq t c < distSq t best
      · have hrw : nearestAux t best (distSq t best) (c :: cs) =
            nearestAux t c (distSq t c) cs := by
          rw [nearestAux, if_pos h]
        rcases ih c with ⟨h1, h2⟩ | ⟨l₁, l₂, heq, hlt, hpre, hpost⟩
        · refine Or.inr ⟨[], cs, ?_, ?_, ?_, ?_⟩
          · simp [hrw, h1]
          · rw [hrw, h1]; exact h
          · simp
          · intro q hq; rw [hrw, h1]; exact h2 q hq
        · refine Or.inr ⟨c :: l₁, l₂, ?_, ?_, ?_, ?_⟩
          · rw [hrw]
            conv_lhs => rw [heq]
            rfl
          · rw [hrw]; exact lt_trans hlt h
          · intro q hq
            rcases List.mem_cons.mp hq with rfl | hq
            · rw [hrw]; exact hlt
            · rw [hrw]; exact hpre q hq
          · intro q hq; rw [hrw]; exact hpost q hq
      · have hrw : nearestAux t best (distSq t best) (c :: cs) =
            nearestAux t best (distSq t best) cs := by
          rw [nearestAux, if_neg h]
        rcases ih best with ⟨h1, h2⟩ | ⟨l₁, l₂, heq, hlt, hpre, hpost⟩
        · refine Or.inl ⟨by rw [hrw]; exact h1, ?_⟩
          intro q hq
          rcases List.mem_cons.mp hq with rfl | hq
          · exact le_of_not_lt h
          · exact h2 q hq
        · refine Or.inr ⟨c :: l₁, l₂, ?_, ?_, ?_, ?_⟩
          · rw [hrw]
            conv_lhs => rw [heq]
            rfl
          · rw [hrw]; exact hlt
          · intro q hq
            rcases List.mem_cons.mp hq with rfl | hq
            · rw [hrw]; exact lt_of_lt_of_le hlt (le_of_not_lt h)
            · rw [hrw]; exact hpre q hq
          · intro q hq; rw [hrw]; exact hpost q hq

/-- The chosen color of `resolve` on a non-empty palette is a palette entry. -/
lemma resolve_fst_mem (t c : RGBQ) (cs : List RGBQ) :
    (resolve t (c :: cs)).1 ∈ c :: cs := by
  simp only [resolve]
  rcases nearestAux_mem t c (distSq t c) cs with h | h
  · simp [h]
  · exact List.mem_cons_of_mem _ h

/-- The chosen color of `resolve` minimizes the distance over the palette. -/
lemma resolve_min (t c : RGBQ) (cs : List RGBQ) :
    ∀ q ∈ c :: cs, distSq t (resolve t (c :: cs)).1 ≤ distSq t q := by
  intro q hq
  simp only [resolve]
  rcases nearestAux_spec t c cs with ⟨h1, h2⟩ | ⟨l₁, l₂, heq, hlt, hpre, hpost⟩
  · rcases List.mem_cons.mp hq with rfl | hq
    · rw [h1]
    · rw [h1]; exact h2 q hq
  · rcases List.mem_cons.mp hq with rfl | hq
    · exact le_of_lt hlt
    · rw [heq] at hq
      rcases List.mem_append.mp hq with hq | hq
      · exact le_of_lt (hpre q hq)
      · rcases List.mem_cons.mp hq with hq | hq
        · rw [hq]
        · exact hpost q hq

/- ## ErrorDiffusionDitherer -/

/-- Modelled from the spec: a point update of the error accumulator —
`err[a,b] += v`, every other cell unchanged (the accumulator of
`display/display_manager.py`'s `apply_floyd_steinberg_dithering` is not
among the sources). -/
def updE (e : ℕ → ℕ → RGBQ) (a b : ℕ) (v : RGBQ) : ℕ → ℕ → RGBQ :=
  fun i j => if i = a ∧ j = b then addQ (e i j) v else e i j

/-- Modelled from the spec: diffusion of the signed residual of pixel
`(x, y)` to its not-yet-visited neighbors with the classic Floyd–Steinberg
weights — east `(x+1, y) += 7/16`, southwest `(x-1, y+1) += 3/16`, south
`(x, y+1) += 5/16`, southeast `(x+1, y+1) += 1/16`; a weight whose target
lies outside the `wdt × hgt` canvas is dropped (no wraparound, no
renormalization). -/
def diffuse (wdt hgt : ℕ) (e : ℕ → ℕ → RGBQ) (x y : ℕ) (res : RGBQ) :
    ℕ → ℕ → RGBQ :=
  let e1 := if x + 1 < wdt then updE e (x + 1) y (smulQ (7/16) res) else e
  let e2 := if 0 < x ∧ y + 1 < hgt then updE e1 (x - 1) (y + 1) (smulQ (3/16) res)
            else e1
  let e3 := if y + 1 < hgt then updE e2 x (y + 1) (smulQ (5/16) res) else e2
  if x + 1 < wdt ∧ y + 1 < hgt then updE e3 (x + 1) (y + 1) (smulQ (1/16) res)
  else e3

/-- The Floyd–Steinberg weight that pixel `(x, y)` contributes to cell
`(i, j)` of a `wdt × hgt` canvas (0 when `(i, j)` is none of the four
forward neighbors or the neighbor is out of bounds). -/
def fsWeight (wdt hgt x y i j : ℕ) : ℚ :=
  (if i = x + 1 ∧ j = y ∧ x + 1 < wdt then 7/16 else 0) +
  (if 0 < x ∧ i = x - 1 ∧ j = y + 1 ∧ y + 1 < hgt then 3/16 else 0) +
  (if i = x ∧ j = y + 1 ∧ y + 1 < hgt then 5/16 else 0) +
  (if i = x + 1 ∧ j = y + 1 ∧ x + 1 < wdt ∧ y + 1 < hgt then 1/16 else 0)

/-- State threaded through the dithering scan: the error accumulator and the
partially written quantized image. -/
def DitherState : Type := (ℕ → ℕ → RGBQ) × (ℕ → ℕ → RGBQ)

/-- Modelled from the spec: processing of one pixel `(x, y)` by the
`ErrorDiffusionDitherer` — `target = canvas[x,y] + errorAccumulated[x,y]`,
`(chosen, residual) = resolve(target, palette)`, `chosen` is written into the
quantized image and `residual` is diffused forward. -/
def ditherStep (wdt hgt : ℕ) (canv : ℕ → ℕ → RGBQ) (pal : List RGBQ)
    (s : DitherState) (p : ℕ × ℕ) : DitherState :=
  let target := addQ (canv p.1 p.2) (s.1 p.1 p.2)
  let cr := resolve target pal
  (diffuse wdt hgt s.1 p.1 p.2 cr.2,
   fun i j => if i = p.1 ∧ j = p.2 then cr.1 else s.2 i j)

/-- The fixed row-major, left-to-right, top-to-bottom scan order over a
`wdt × hgt` canvas. -/
def scanOrder (wdt hgt : ℕ) : List (ℕ × ℕ) :=
  (List.range hgt).flatMap fun y => (List.range wdt).map fun x => (x, y)

/-- Modelled from the spec: `dither(canvas, palette) -> quantizedImage` —
folds `ditherStep` over the row-major scan order, starting from a zero error
accumulator and an all-black output buffer, and returns the quantized
image. -/
def dither (wdt hgt : ℕ) (canv : ℕ → ℕ → RGBQ) (pal : List RGBQ) :
    ℕ → ℕ → RGBQ :=
  ((scanOrder wdt hgt).foldl (ditherStep wdt hgt canv pal)
    (fun _ _ => ⟨0, 0, 0⟩, fun _ _ => ⟨0, 0, 0⟩)).2

/-- The quantized cell written by `ditherStep` is `resolve`'s chosen color;
all other cells keep their values. -/
lemma ditherStep_snd (wdt hgt : ℕ) (canv : ℕ → ℕ → RGBQ) (pal : List RGBQ)
    (s : DitherState) (p : ℕ × ℕ) (i j : ℕ) :
    (ditherStep wdt hgt canv pal s p).2 i j =
      if i = p.1 ∧ j = p.2 then
        (resolve (addQ (canv p.1 p.2) (s.1 p.1 p.2)) pal).1
      else s.2 i j := rfl

/-- Any cell already holding a palette member still holds a palette member
after the rest of the scan (each step writes only `resolve`'s chosen color,
itself a palette member). -/
lemma foldl_preserves_mem (wdt hgt : ℕ) (canv : ℕ → ℕ → RGBQ)
    (c : RGBQ) (cs : List RGBQ) (l : List (ℕ × ℕ)) (s : DitherState)
    (a b : ℕ) (hs : s.2 a b ∈ c :: cs) :
    (l.foldl (ditherStep wdt hgt canv (c :: cs)) s).2 a b ∈ c :: cs := by
  induction l generalizing s with
  | nil => exact hs
  | cons p ps ih =>
      refine ih _ ?_
      rw [ditherStep_snd]
      by_cases hp : a = p.1 ∧ b = p.2
      · rw [if_pos hp]; exact resolve_fst_mem _ c cs
      · rw [if_neg hp]; exact hs

/-- Any cell visited by the remaining scan holds a palette member when the
scan is finished. -/
lemma foldl_mem_of_visited (wdt hgt : ℕ) (canv : ℕ → ℕ → RGBQ)
    (c : RGBQ) (cs : List RGBQ) (l : List (ℕ × ℕ)) (s : DitherState)
    (a b : ℕ) (hv : (a, b) ∈ l) :
    (l.foldl (ditherStep wdt hgt canv (c :: cs)) s).2 a b ∈ c :: cs := by
  induction l generalizing s with
  | nil => exact absurd hv (List.not_mem_nil _)
  | cons p ps ih =>
      rcases List.mem_cons.mp hv with hp | hp
      · refine foldl_preserves_mem wdt hgt canv c cs ps _ a b ?_
        rw [ditherStep_snd]
        have : a = p.1 ∧ b = p.2 := by rw [← hp]; exact ⟨rfl, rfl⟩
        rw [if_pos this]
        exact resolve_fst_mem _ c cs
      · exact ih _ hp

/-- A cell lies in the row-major scan order exactly when it lies on the
canvas. -/
lemma mem_scanOrder (wdt hgt x y : ℕ) :
    (x, y) ∈ scanOrder wdt hgt ↔ x < wdt ∧ y < hgt := by
  simp only [scanOrder, List.mem_flatMap, List.mem_map, List.mem_range,
    Prod.mk.injEq]
  constructor
  · rintro ⟨b, hb, a, ha, rfl, rfl⟩
    exact ⟨ha, hb⟩
  · rintro ⟨hx, hy⟩
    exact ⟨y, hy, x, hx, rfl, rfl⟩

/-- The sequence of guarded point updates performed by `diffuse` equals, at
every cell, a single addition of the closed-form Floyd–Steinberg weight times
the residual. -/
lemma diffuse_eq (wdt hgt : ℕ) (e : ℕ → ℕ → RGBQ) (x y : ℕ) (res : RGBQ)
    (i j : ℕ) :
    diffuse wdt hgt e x y res i j =
      addQ (e i j) (smulQ (fsWeight wdt hgt x y i j) res) := by
  by_cases h1 : x + 1 < wdt <;> by_cases h2 : 0 < x ∧ y + 1 < hgt <;>
    by_cases h3 : y + 1 < hgt <;>
    simp only [diffuse, fsWeight, h1, h2, h3, and_self, if_true, if_false,
      ite_true, ite_false, and_true, true_and, and_false, false_and,
      eq_self_iff_true, not_true, not_false_iff, updE] <;>
    (try split_ifs) <;>
    first
      | (exfalso; omega)
      | (ext <;> simp [updE, addQ, smulQ, *])

/-- C1: palette closure — for every well-formed canvas and non-empty palette,
every pixel of the quantized image produced by the dithering pipeline is
exactly a member of the configured palette, with zero exceptions. -/
theorem dither_palette_closure (wdt hgt : ℕ) (canv : ℕ → ℕ → RGBQ)
    (pal : List RGBQ) (hpal : pal ≠ []) (x y : ℕ) (hx : x < wdt)
    (hy : y < hgt) : dither wdt hgt canv pal x y ∈ pal := by
  obtain ⟨c, cs, rfl⟩ := List.exists_cons_of_ne_nil hpal
  exact foldl_mem_of_visited wdt hgt canv c cs _ _ x y
    ((mem_scanOrder wdt hgt x y).mpr ⟨hx, hy⟩)

/-- Witness for C1: on a 1×1 red canvas with the one-entry black palette, the
quantized pixel is a palette member. -/
theorem dither_palette_closure_witness :
    (([⟨0, 0, 0⟩] : List RGBQ) ≠ [] ∧ (0 : ℕ) < 1 ∧ (0 : ℕ) < 1) ∧
      dither 1 1 (fun _ _ => ⟨255, 0, 0⟩) [⟨0, 0, 0⟩] 0 0 ∈
        ([⟨0, 0, 0⟩] : List RGBQ) :=
  ⟨⟨by decide, by decide, by decide⟩,
    dither_palette_closure 1 1 (fun _ _ => ⟨255, 0, 0⟩) [⟨0, 0, 0⟩]
      (by decide) 0 0 (by decide) (by decide)⟩

/-- C2: processing one pixel `(x, y)`, the ditherer adds to every cell of the
error accumulator exactly `fsWeight` times the signed residual of that pixel:
7/16 at `(x+1, y)`, 3/16 at `(x-1, y+1)`, 5/16 at `(x, y+1)`, 1/16 at
`(x+1, y+1)` when those targets are on the canvas, and 0 everywhere else —
out-of-bounds weights are dropped with no wraparound and no renormalization
of the remaining weights. -/
theorem ditherStep_diffusion (wdt hgt : ℕ) (canv : ℕ → ℕ → RGBQ)
    (pal : List RGBQ) (s : DitherState) (x y i j : ℕ) :
    (ditherStep wdt hgt canv pal s (x, y)).1 i j =
      addQ (s.1 i j)
        (smulQ (fsWeight wdt hgt x y i j)
          (resolve (addQ (canv x y) (s.1 x y)) pal).2) :=
  diffuse_eq wdt hgt s.1 x y (resolve (addQ (canv x y) (s.1 x y)) pal).2 i j

/-- C5: on a non-empty palette, `resolve` returns a palette entry of minimal
distance to the input color together with the signed residual
`color - chosenColor`, and among entries attaining the minimum it picks the
one earliest in catalog order (everything strictly before the chosen entry in
the palette has strictly larger distance). -/
theorem resolve_nearest_first (t c : RGBQ) (cs : List RGBQ) :
    (resolve t (c :: cs)).1 ∈ c :: cs ∧
    (∀ q ∈ c :: cs, distSq t (resolve t (c :: cs)).1 ≤ distSq t q) ∧
    (∃ l₁ l₂, c :: cs = l₁ ++ (resolve t (c :: cs)).1 :: l₂ ∧
      ∀ q ∈ l₁, distSq t (resolve t (c :: cs)).1 < distSq t q) ∧
    (resolve t (c :: cs)).2 = subQ t (resolve t (c :: cs)).1 := by
  refine ⟨resolve_fst_mem t c cs, resolve_min t c cs, ?_, rfl⟩
  rcases nearestAux_spec t c cs with ⟨h1, _⟩ | ⟨l₁, l₂, heq, hlt, hpre, _⟩
  · refine ⟨[], cs, ?_, by simp⟩
    simp only [resolve]
    rw [h1]
    rfl
  · refine ⟨c :: l₁, l₂, ?_, ?_⟩
    · simp only [resolve]
      conv_lhs => rw [heq]
      rfl
    · intro q hq
      simp only [resolve]
      rcases List.mem_cons.mp hq with rfl | hq
      · exact hlt
      · exact hpre q hq

/- ## ToneEnhancer -/

/-- Clamp a channel value to `[0, 255]`. -/
def clampQ (v : ℚ) : ℚ := max 0 (min 255 v)

/-- Rec. 601 luma of a color, in exact rational arithmetic. -/
def lumaQ (p : RGBQ) : ℚ := (299 * p.r + 587 * p.g + 114 * p.b) / 1000

/-- Enhancement configuration: non-negative multipliers, 1.0 = no change. -/
structure EnhanceConfig where
  brightness : ℚ
  contrast : ℚ
  saturation : ℚ
deriving DecidableEq, Repr

/-- Modelled from the spec: the per-pixel tone enhancement of `ToneEnhancer`
(`display/display_manager.py`'s enhancement stage is not among the sources).
The pixel is decomposed into luma and chroma so luminance and chrominance are
decoupled; brightness and contrast scale the luma, saturation scales the
chroma, and each channel is clamped to `[0, 255]` immediately after every
adjustment step. -/
def enhancePixel (f : EnhanceConfig) (p : RGBQ) : RGBQ :=
  let y := lumaQ p
  let y1 := clampQ (f.brightness * y)
  let y2 := clampQ (f.contrast * (y1 - 128) + 128)
  ⟨clampQ (y2 + f.saturation * (p.r - y)),
   clampQ (y2 + f.saturation * (p.g - y)),
   clampQ (y2 + f.saturation * (p.b - y))⟩

/-- A canvas: fixed dimensions plus a pixel grid. -/
structure CanvasQ where
  width : ℕ
  height : ℕ
  pix : ℕ → ℕ → RGBQ

/-- Modelled from the spec:
`enhance(canvas, {brightness, contrast, saturation}) -> canvas'` applies the
per-pixel enhancement to every pixel; the output canvas has identical
dimensions to the input. -/
def enhance (c : CanvasQ) (f : EnhanceConfig) : CanvasQ :=
  ⟨c.width, c.height, fun x y => enhancePixel f (c.pix x y)⟩

/-- All channels of a color lie in `[0, 255]`. -/
def InRange (p : RGBQ) : Prop :=
  0 ≤ p.r ∧ p.r ≤ 255 ∧ 0 ≤ p.g ∧ p.g ≤ 255 ∧ 0 ≤ p.b ∧ p.b ≤ 255

instance (p : RGBQ) : Decidable (InRange p) := by
  unfold InRange; infer_instance

/-- Clamping does nothing to a value already in `[0, 255]`. -/
lemma clampQ_eq_self (v : ℚ) (h0 : 0 ≤ v) (h255 : v ≤ 255) : clampQ v = v := by
  unfold clampQ
  rw [min_eq_right h255, max_eq_right h0]

/-- The luma of an in-range color is in `[0, 255]`. -/
lemma lumaQ_range (p : RGBQ) (h : InRange p) :
    0 ≤ lumaQ p ∧ lumaQ p ≤ 255 := by
  obtain ⟨h1, h2, h3, h4, h5, h6⟩ := h
  unfold lumaQ
  constructor
  · positivity
  · rw [div_le_iff₀ (by norm_num : (0:ℚ) < 1000)]
    nlinarith

/-- With all three factors equal to 1, the per-pixel enhancement is the
identity on in-range pixels. -/
lemma enhancePixel_id (p : RGBQ) (h : InRange p) :
    enhancePixel ⟨1, 1, 1⟩ p = p := by
  obtain ⟨hy0, hy255⟩ := lumaQ_range p h
  obtain ⟨h1, h2, h3, h4, h5, h6⟩ := h
  simp only [enhancePixel, one_mul]
  rw [clampQ_eq_self _ hy0 hy255]
  have hmid : clampQ (lumaQ p - 128 + 128) = lumaQ p := by
    rw [show lumaQ p - 128 + 128 = lumaQ p by ring]
    exact clampQ_eq_self _ hy0 hy255
  rw [hmid]
  ext
  · simp only
    rw [show lumaQ p + (p.r - lumaQ p) = p.r by ring]
    exact clampQ_eq_self _ h1 h2
  · simp only
    rw [show lumaQ p + (p.g - lumaQ p) = p.g by ring]
    exact clampQ_eq_self _ h3 h4
  · simp only
    rw [show lumaQ p + (p.b - lumaQ p) = p.b by ring]
    exact clampQ_eq_self _ h5 h6

/-- C4: identity law of the ToneEnhancer — for every canvas whose pixels are
in range, `enhance(canvas, {1.0, 1.0, 1.0})` returns the canvas unchanged
(identical dimensions and identical pixel values everywhere on the
canvas). -/
theorem enhance_identity (c : CanvasQ)
    (hwf : ∀ x y, x < c.width → y < c.height → InRange (c.pix x y)) :
    (enhance c ⟨1, 1, 1⟩).width = c.width ∧
    (enhance c ⟨1, 1, 1⟩).height = c.height ∧
    ∀ x y, x < c.width → y < c.height →
      (enhance c ⟨1, 1, 1⟩).pix x y = c.pix x y := by
  refine ⟨rfl, rfl, ?_⟩
  intro x y hx hy
  exact enhancePixel_id (c.pix x y) (hwf x y hx hy)

/-- Witness for C4: enhancing a concrete 1×1 canvas with unit factors leaves
its pixel untouched. -/
theorem enhance_identity_witness :
    InRange (⟨10, 20, 30⟩ : RGBQ) ∧
      (enhance ⟨1, 1, fun _ _ => ⟨10, 20, 30⟩⟩ ⟨1, 1, 1⟩).pix 0 0 =
        (⟨10, 20, 30⟩ : RGBQ) :=
  ⟨by decide,
    (enhance_identity ⟨1, 1, fun _ _ => ⟨10, 20, 30⟩⟩
      (fun x y _ _ => by exact (by decide : InRange ⟨10, 20, 30⟩))).2.2
      0 0 (by decide) (by decide)⟩

/- ## 8-bit images and the sharp resize pipeline of the upload server -/

/-- An 8-bit-per-channel RGB pixel (channel values `0..255`). -/
structure RGB8 where
  r : ℕ
  g : ℕ
  b : ℕ
deriving DecidableEq, Repr

/-- An 8-bit canvas: dimensions plus a pixel grid. -/
structure Canvas8 where
  width : ℕ
  height : ℕ
  pix : ℕ → ℕ → RGB8

/-- `a / b` rounded to the nearest natural (half away from zero). -/
def roundHalf (a b : ℕ) : ℕ := (2 * a + b) / (2 * b)

/-- The scaled dimensions used by sharp's `fit: 'contain'` / `fit: 'inside'`:
the relatively larger source dimension is scaled to exactly match the target
and the other is scaled proportionally (aspect-preserving fit of `w × h` into
`W × H`). -/
def containScaled (w h W H : ℕ) : ℕ × ℕ :=
  if h * W ≤ w * H then (W, roundHalf (h * W) w) else (roundHalf (w * H) h, H)

/-- Rounding a quotient that is at most `H` yields at most `H`. -/
lemma roundHalf_le (a b H : ℕ) (hb : 0 < b) (h : a ≤ b * H) :
    roundHalf a b ≤ H := by
  unfold roundHalf
  have hlt : 2 * a + b < (H + 1) * (2 * b) := by nlinarith
  have := (Nat.div_lt_iff_lt_mul (by omega : 0 < 2 * b)).mpr hlt
  omega

/-- The aspect-preserving fit never exceeds the target box. -/
lemma containScaled_le (w h W H : ℕ) (hw : 0 < w) (hh : 0 < h) :
    (containScaled w h W H).1 ≤ W ∧ (containScaled w h W H).2 ≤ H := by
  unfold containScaled
  by_cases hc : h * W ≤ w * H
  · rw [if_pos hc]
    exact ⟨le_refl W, roundHalf_le (h * W) w H hw hc⟩
  · rw [if_neg hc]
    refine ⟨roundHalf_le (w * H) h W hh ?_, le_refl H⟩
    omega

/-- One scaled dimension equals the corresponding target dimension. -/
lemma containScaled_touches (w h W H : ℕ) :
    (containScaled w h W H).1 = W ∨ (containScaled w h W H).2 = H := by
  unfold containScaled
  by_cases hc : h * W ≤ w * H
  · rw [if_pos hc]; exact Or.inl rfl
  · rw [if_neg hc]; exact Or.inr rfl

/-- Embedded from `src/src/server/app.ts` lines 133-139: sharp's
`resize(W, H, fit: 'contain', background)` — the source is scaled with
aspect-preserving contain semantics onto an exactly `W × H` canvas, centered,
with every border pixel equal to the background color (nearest-neighbor
sampling stands in for the configurable kernel, which does not affect
dimensions or borders). -/
def composeContain (w h : ℕ) (src : ℕ → ℕ → RGB8) (W H : ℕ) (bg : RGB8) :
    Canvas8 :=
  let sw := (containScaled w h W H).1
  let sh := (containScaled w h W H).2
  let ox := (W - sw) / 2
  let oy := (H - sh) / 2
  ⟨W, H, fun x y =>
    if ox ≤ x ∧ x < ox + sw ∧ oy ≤ y ∧ y < oy + sh then
      src ((x - ox) * w / sw) ((y - oy) * h / sh)
    else bg⟩

/-- Embedded from `src/server/services/imageProcessor.ts` lines 37-41:
sharp's `resize(W, H, fit: 'inside', withoutEnlargement: true)` — a source
already inside the target box is kept at its own size; otherwise it is scaled
down with the aspect-preserving fit.  The output dimensions are the scaled
dimensions themselves: no padding to the target box occurs. -/
def insideNoEnlargeDims (w h W H : ℕ) : ℕ × ℕ :=
  if w ≤ W ∧ h ≤ H then (w, h) else containScaled w h W H

/- ## Image-processor configuration (src/server/services/imageProcessor.ts) -/

/-- Embedded from `src/server/services/imageProcessor.ts` lines 4-8: the local
image-processing configuration. -/
structure ImageProcessingConfig where
  targetWidth : Int
  targetHeight : Int
  quality : Int
deriving DecidableEq, Repr

/-- Embedded from `imageProcessor.ts` lines 10-14: the default configuration
(800×480 Waveshare display, quality 95). -/
def defaultConfig : ImageProcessingConfig := ⟨800, 480, 95⟩

/-- A `Partial<ImageProcessingConfig>`: each field optionally present. -/
structure ConfigPatch where
  targetWidth : Option Int
  targetHeight : Option Int
  quality : Option Int
deriving DecidableEq, Repr

/-- The TypeScript spread `{ ...cur, ...p }`: fields present in the patch
override the current value. -/
def mergeConfig (cur : ImageProcessingConfig) (p : ConfigPatch) :
    ImageProcessingConfig :=
  ⟨p.targetWidth.getD cur.targetWidth,
   p.targetHeight.getD cur.targetHeight,
   p.quality.getD cur.quality⟩

/-- Embedded from `imageProcessor.ts` lines 188-190: `updateConfig` assigns
`currentConfig = { ...currentConfig, ...config }` — the module-level state
transition. -/
def updateConfigS (st : ImageProcessingConfig) (p : ConfigPatch) :
    ImageProcessingConfig :=
  mergeConfig st p

/-- Embedded from `imageProcessor.ts` lines 195-197: `getConfig` returns a
copy `{ ...currentConfig }` of the module-level state. -/
def getConfigS (st : ImageProcessingConfig) : ImageProcessingConfig := st

/-- Embedded from `imageProcessor.ts` lines 202-204: `resetConfig` assigns
`currentConfig = { ...defaultConfig }` regardless of the current state. -/
def resetConfigS (_ : ImageProcessingConfig) : ImageProcessingConfig :=
  defaultConfig

/-- Embedded from `imageProcessor.ts` lines 21-70 (`processImage`): the
observable behavior of the sharp pipeline under the module-level
configuration — `resize(targetWidth, targetHeight, fit: 'inside',
withoutEnlargement)` then `.jpeg({ quality })`.  Every sharp failure
surfaces at `toBuffer()` inside the try block and the catch rethrows
`'Failed to process image'`: an undecodable input (modelled as a zero-area
source), sharp's resize option validation (`width`/`height` must be positive
integers), and sharp's jpeg option validation (`quality` must be an integer
between 1 and 100).  `updateConfig` itself performs no validation, so
invalid values reach this point. -/
def processImageResult (st : ImageProcessingConfig) (w h : ℕ) :
    Except String (ℕ × ℕ) :=
  if w = 0 ∨ h = 0 then Except.error "Failed to process image"
  else if st.targetWidth ≤ 0 ∨ st.targetHeight ≤ 0 then
    Except.error "Failed to process image"
  else if st.quality < 1 ∨ 100 < st.quality then
    Except.error "Failed to process image"
  else Except.ok (insideNoEnlargeDims w h st.targetWidth.toNat st.targetHeight.toNat)

/- ## Greyscale pipeline of POST /api/photo (src/src/server/app.ts) -/

/-- Target canvas width of the upload endpoint (`app.ts` line 17). -/
def TARGET_WIDTH : ℕ := 800

/-- Target canvas height of the upload endpoint (`app.ts` line 18). -/
def TARGET_HEIGHT : ℕ := 480

/-- Upload size limit of the upload endpoint (`app.ts` line 19). -/
def MAX_FILE_SIZE : ℕ := 10 * 1024 * 1024

/-- sharp's `.greyscale()` (`app.ts` line 140): the pixel is replaced by its
luma replicated into all three channels (Rec. 709 weights, integer
arithmetic). -/
def grey709 (p : RGB8) : RGB8 :=
  let y := (2126 * p.r + 7152 * p.g + 722 * p.b) / 10000
  ⟨y, y, y⟩

/-- Embedded from `app.ts` lines 133-146: the processing applied to an
accepted upload — `resize(800, 480, fit: 'contain', background: white)`
followed by `.greyscale()` (the JPEG encode preserves dimensions and the
greyscale property). -/
def uploadProcess (w h : ℕ) (src : ℕ → ℕ → RGB8) : Canvas8 :=
  let c := composeContain w h src TARGET_WIDTH TARGET_HEIGHT ⟨255, 255, 255⟩
  ⟨c.width, c.height, fun x y => grey709 (c.pix x y)⟩

/- ## The POST /api/photo handler (src/src/server/app.ts lines 83-181) -/

/-- The request data the handler branches on. -/
structure UploadRequest where
  filePresent : Bool
  fileType : String
  fileSize : ℕ
  srcWidth : ℕ
  srcHeight : ℕ
  srcPix : ℕ → ℕ → RGB8

/-- The single stored photo (overwrite semantics). -/
structure StoredPhoto where
  width : ℕ
  height : ℕ
  pix : ℕ → ℕ → RGB8

/-- The observable outcome of one POST /api/photo invocation: HTTP status,
the JSON `success` flag, whether image processing ran, the metadata of the
JSON response, and the stored photo afterwards. -/
structure UploadOutcome where
  status : ℕ
  success : Bool
  processed : Bool
  respWidth : ℕ
  respHeight : ℕ
  stored : Option StoredPhoto

/-- Embedded from `app.ts` lines 83-181: the POST /api/photo handler.
Checks run in source order — missing file (400), non-JPEG type (400), size
above `MAX_FILE_SIZE` (400) — each returning before the existing photo is
removed or any processing happens.  Otherwise the image is processed and
saved, and the display-update script is run inside try/catch: its failure
(`displayFails`) is only logged and the success response is returned
regardless. -/
def postPhoto (st : Option StoredPhoto) (req : UploadRequest)
    (_displayFails : Bool) : UploadOutcome :=
  if req.filePresent = false then ⟨400, false, false, 0, 0, st⟩
  else if req.fileType ≠ "image/jpeg" then ⟨400, false, false, 0, 0, st⟩
  else if MAX_FILE_SIZE < req.fileSize then ⟨400, false, false, 0, 0, st⟩
  else
    let out := uploadProcess req.srcWidth req.srcHeight req.srcPix
    ⟨200, true, true, out.width, out.height,
      some ⟨out.width, out.height, out.pix⟩⟩

/- ## Claims about composition, configuration and the upload endpoint -/

/-- C3 (amended): the upload endpoint's compose (`fit: 'contain'`,
`app.ts` lines 133-139) returns a canvas of exactly `(W, H)`; the scaled
source never exceeds the target box and at least one scaled dimension equals
the corresponding target dimension (aspect-preserving contain fit); every
pixel outside the centered scaled rectangle equals the background color. -/
theorem composeContain_spec (w h W H : ℕ) (hw : 0 < w) (hh : 0 < h)
    (src : ℕ → ℕ → RGB8) (bg : RGB8) :
    (composeContain w h src W H bg).width = W ∧
    (composeContain w h src W H bg).height = H ∧
    ((containScaled w h W H).1 ≤ W ∧ (containScaled w h W H).2 ≤ H) ∧
    ((containScaled w h W H).1 = W ∨ (containScaled w h W H).2 = H) ∧
    ∀ x y,
      ¬((W - (containScaled w h W H).1) / 2 ≤ x ∧
        x < (W - (containScaled w h W H).1) / 2 + (containScaled w h W H).1 ∧
        (H - (containScaled w h W H).2) / 2 ≤ y ∧
        y < (H - (containScaled w h W H).2) / 2 + (containScaled w h W H).2) →
      (composeContain w h src W H bg).pix x y = bg := by
  refine ⟨rfl, rfl, containScaled_le w h W H hw hh,
    containScaled_touches w h W H, ?_⟩
  intro x y hout
  simp only [composeContain]
  rw [if_neg hout]

/-- Witness for C3: a 50×50 source composed onto 800×480 — dimensions are
exact and the corner pixel (outside the centered 480×480 area) is
background. -/
theorem composeContain_spec_witness :
    ((0 : ℕ) < 50 ∧ (0 : ℕ) < 50) ∧
      (composeContain 50 50 (fun _ _ => ⟨0, 0, 0⟩) 800 480
          ⟨255, 255, 255⟩).width = 800 ∧
      (composeContain 50 50 (fun _ _ => ⟨0, 0, 0⟩) 800 480
          ⟨255, 255, 255⟩).pix 0 0 = ⟨255, 255, 255⟩ := by
  have h := composeContain_spec 50 50 800 480 (by decide) (by decide)
    (fun _ _ => ⟨0, 0, 0⟩) ⟨255, 255, 255⟩
  exact ⟨⟨by decide, by decide⟩, h.1, h.2.2.2.2 0 0 (by decide)⟩

/-- Counterexample to C3 as stated: `processImage` of
`src/server/services/imageProcessor.ts` uses `fit: 'inside'` with
`withoutEnlargement`, so a 50×50 source against the default 800×480 target
yields a 50×50 output — not a canvas of exactly `(W, H)` and with no
background border at all. -/
theorem processImage_not_exact_dims :
    processImageResult defaultConfig 50 50 = Except.ok (50, 50) ∧
      (50, 50) ≠ (TARGET_WIDTH, TARGET_HEIGHT) := by
  constructor
  · rfl
  · decide

/-- C6 (amended): there is no fail-fast configuration validation —
`updateConfig` accepts every patch, returning the merged configuration with
no rejection and no `ConfigurationError`; an out-of-range quality factor only
surfaces later, when `processImage` runs under it and sharp's option
validation makes that processing attempt fail with the generic
`'Failed to process image'` (so no image is produced, but nothing was
rejected at construction/update time). -/
theorem updateConfig_no_failfast (st : ImageProcessingConfig)
    (p : ConfigPatch) (w h : ℕ)
    (hq : (mergeConfig st p).quality < 1 ∨ 100 < (mergeConfig st p).quality) :
    updateConfigS st p = mergeConfig st p ∧
    processImageResult (updateConfigS st p) w h =
      Except.error "Failed to process image" := by
  refine ⟨rfl, ?_⟩
  unfold processImageResult updateConfigS
  split_ifs with h1 h2 <;> rfl

/-- Witness for C6 (amended): the patch `{quality: -5}` is merged without
rejection and the subsequent 50×50 `processImage` call fails with the
generic processing error. -/
theorem updateConfig_no_failfast_witness :
    ((mergeConfig defaultConfig ⟨none, none, some (-5)⟩).quality < 1 ∨
        100 < (mergeConfig defaultConfig ⟨none, none, some (-5)⟩).quality) ∧
      (updateConfigS defaultConfig ⟨none, none, some (-5)⟩ =
          mergeConfig defaultConfig ⟨none, none, some (-5)⟩ ∧
        processImageResult
            (updateConfigS defaultConfig ⟨none, none, some (-5)⟩) 50 50 =
          Except.error "Failed to process image") :=
  ⟨by decide,
    updateConfig_no_failfast defaultConfig ⟨none, none, some (-5)⟩ 50 50
      (by decide)⟩

/-- Counterexample to C6 as stated: the patch `{quality: -5}` makes the
configuration invalid (negative factor), yet `updateConfig` accepts it and
returns the merged configuration — no rejection, no `ConfigurationError`, no
fail-fast at construction time; the invalid value instead causes the later
`processImage` call to fail with the generic `'Failed to process image'`. -/
theorem updateConfig_accepts_invalid :
    updateConfigS defaultConfig ⟨none, none, some (-5)⟩ =
        ⟨800, 480, -5⟩ ∧
      processImageResult ⟨800, 480, -5⟩ 50 50 =
        Except.error "Failed to process image" := by
  constructor
  · rfl
  · rfl

/-- C7 (amended): the processing module's configuration is mutable shared
state — `updateConfig` changes the configuration that later `getConfig` and
`processImage` invocations observe, and `resetConfig` restores the default
from any state. -/
theorem config_mutable_module_state :
    (∃ st p, getConfigS (updateConfigS st p) ≠ getConfigS st) ∧
    (∃ st p w h,
      processImageResult (updateConfigS st p) w h ≠
        processImageResult st w h) ∧
    ∀ st, resetConfigS st = defaultConfig := by
  refine ⟨⟨defaultConfig, ⟨some 400, some 240, none⟩, by decide⟩,
    ⟨defaultConfig, ⟨some 400, some 240, none⟩, 500, 500, ?_⟩,
    fun _ => rfl⟩
  have h1 : processImageResult
      (updateConfigS defaultConfig ⟨some 400, some 240, none⟩) 500 500 =
      Except.ok (240, 240) := rfl
  have h2 : processImageResult defaultConfig 500 500 =
      Except.ok (480, 480) := rfl
  rw [h1, h2]
  simp

/-- Counterexample to C7 as stated: `updateConfig({targetWidth: 400,
targetHeight: 240})` mutates the module-level `currentConfig`, so a later
`getConfig` returns a different configuration and a later `processImage` of
the same 500×500 source returns different dimensions than before the
update. -/
theorem config_state_mutates :
    getConfigS (updateConfigS defaultConfig ⟨some 400, some 240, none⟩) ≠
        getConfigS defaultConfig ∧
      processImageResult
          (updateConfigS defaultConfig ⟨some 400, some 240, none⟩) 500 500 ≠
        processImageResult defaultConfig 500 500 := by
  constructor
  · decide
  · have h1 : processImageResult
        (updateConfigS defaultConfig ⟨some 400, some 240, none⟩) 500 500 =
        Except.ok (240, 240) := rfl
    have h2 : processImageResult defaultConfig 500 500 =
        Except.ok (480, 480) := rfl
    rw [h1, h2]
    simp

/-- C8: every pixel stored by the upload endpoint's processing pipeline
(resize + greyscale) has equal red, green and blue channels — all
chrominance is discarded before storage. -/
theorem uploadProcess_greyscale (w h : ℕ) (src : ℕ → ℕ → RGB8) (x y : ℕ) :
    ((uploadProcess w h src).pix x y).r = ((uploadProcess w h src).pix x y).g ∧
    ((uploadProcess w h src).pix x y).g = ((uploadProcess w h src).pix x y).b := by
  constructor <;> rfl

/-- C9: an upload whose size exceeds `MAX_FILE_SIZE` (10·1024·1024 bytes) is
answered with HTTP 400 and `success: false`; no processing occurs and the
stored photo is unchanged. -/
theorem postPhoto_size_limit (st : Option StoredPhoto) (req : UploadRequest)
    (dfail : Bool) (hsize : MAX_FILE_SIZE < req.fileSize) :
    (postPhoto st req dfail).status = 400 ∧
    (postPhoto st req dfail).success = false ∧
    (postPhoto st req dfail).processed = false ∧
    (postPhoto st req dfail).stored = st := by
  unfold postPhoto
  split_ifs with h1 h2
  · exact ⟨rfl, rfl, rfl, rfl⟩
  · exact ⟨rfl, rfl, rfl, rfl⟩
  · exact ⟨rfl, rfl, rfl, rfl⟩

/-- Witness for C9: a 10485761-byte JPEG upload (one byte over the limit)
against an empty store is rejected with 400 and nothing is stored. -/
theorem postPhoto_size_limit_witness :
    MAX_FILE_SIZE < 10485761 ∧
      (postPhoto none
          ⟨true, "image/jpeg", 10485761, 1, 1, fun _ _ => ⟨0, 0, 0⟩⟩
          false).status = 400 ∧
      (postPhoto none
          ⟨true, "image/jpeg", 10485761, 1, 1, fun _ _ => ⟨0, 0, 0⟩⟩
          false).success = false ∧
      (postPhoto none
          ⟨true, "image/jpeg", 10485761, 1, 1, fun _ _ => ⟨0, 0, 0⟩⟩
          false).processed = false ∧
      (postPhoto none
          ⟨true, "image/jpeg", 10485761, 1, 1, fun _ _ => ⟨0, 0, 0⟩⟩
          false).stored = none :=
  ⟨by decide,
    postPhoto_size_limit none
      ⟨true, "image/jpeg", 10485761, 1, 1, fun _ _ => ⟨0, 0, 0⟩⟩
      false (by decide)⟩

/-- C10: when an upload passes validation, the processed photo is saved and
the success response (HTTP 200 with the saved photo's 800×480 metadata) is
returned whether or not the external display-update script fails — the
display failure is swallowed by the handler's catch block and never surfaces
to the caller. -/
theorem postPhoto_display_failure_ignored (st : Option StoredPhoto)
    (req : UploadRequest) (hp : req.filePresent = true)
    (ht : req.fileType = "image/jpeg") (hs : req.fileSize ≤ MAX_FILE_SIZE) :
    postPhoto st req true = postPhoto st req false ∧
    (postPhoto st req true).status = 200 ∧
    (postPhoto st req true).success = true ∧
    (postPhoto st req true).respWidth = TARGET_WIDTH ∧
    (postPhoto st req true).respHeight = TARGET_HEIGHT ∧
    (postPhoto st req true).stored =
      some ⟨TARGET_WIDTH, TARGET_HEIGHT,
        (uploadProcess req.srcWidth req.srcHeight req.srcPix).pix⟩ := by
  unfold postPhoto
  rw [if_neg (by simp [hp]), if_neg (by simp [ht]),
    if_neg (Nat.not_lt.mpr hs)]
  exact ⟨rfl, rfl, rfl, rfl, rfl, rfl⟩

/-- Witness for C10: a valid 1-byte JPEG upload succeeds with 200/800×480
both when the display script fails and when it does not. -/
theorem postPhoto_display_failure_ignored_witness :
    ((⟨true, "image/jpeg", 1, 1, 1, fun _ _ => ⟨9, 9, 9⟩⟩ :
        UploadRequest).filePresent = true ∧
      (⟨true, "image/jpeg", 1, 1, 1, fun _ _ => ⟨9, 9, 9⟩⟩ :
        UploadRequest).fileType = "image/jpeg" ∧
      (⟨true, "image/jpeg", 1, 1, 1, fun _ _ => ⟨9, 9, 9⟩⟩ :
        UploadRequest).fileSize ≤ MAX_FILE_SIZE) ∧
      postPhoto none ⟨true, "image/jpeg", 1, 1, 1, fun _ _ => ⟨9, 9, 9⟩⟩ true =
        postPhoto none ⟨true, "image/jpeg", 1, 1, 1, fun _ _ => ⟨9, 9, 9⟩⟩
          false ∧
      (postPhoto none ⟨true, "image/jpeg", 1, 1, 1, fun _ _ => ⟨9, 9, 9⟩⟩
          true).status = 200 :=
  ⟨⟨by decide, by decide, by decide⟩,
    (postPhoto_display_failure_ignored none
        ⟨true, "image/jpeg", 1, 1, 1, fun _ _ => ⟨9, 9, 9⟩⟩
        (by decide) (by decide) (by decide)).1,
    (postPhoto_display_failure_ignored none
        ⟨true, "image/jpeg", 1, 1, 1, fun _ _ => ⟨9, 9, 9⟩⟩
        (by decide) (by decide) (by decide)).2.1⟩

end PhotoFrame
